import Mathlib

/-!
Verification of the adaptive review scheduler of the `project-memory`
Obsidian plugin.  The embedding follows the current iteration of the code:
`main.ts` (first version in the file: persisted-payload stats store) together
with the stats-based `ReviewModal` (source file `part_002`).

Modelling conventions:
* JavaScript numbers are modelled as exact rationals (`ℚ`); the claims under
  study are statements about the real-valued arithmetic of the scoring rules,
  not about binary floating-point rounding.
* A JavaScript object used as a string-keyed map is modelled as an association
  list `List (String × β)`: assignment to an existing key keeps its position,
  assignment to a fresh key appends at the end (JS insertion order).
* `new Date().toISOString()` is passed in as an explicit `now : String`.
* Storage writes always succeed in the model; the write-failure paths of the
  code (`catch` + `console.error`) are outside the claims treated here except
  where a claim is about the read-failure fallback, which is modelled
  explicitly.
-/

namespace ProjectMemory

/-- One entry of `reviewHistory` (main.ts:25-29). -/
structure ReviewEntry where
  date : String
  action : String
  scoreAfter : ℚ
  deriving DecidableEq, Repr

/-- `ProjectStats` (main.ts:20-30). -/
structure ProjectStats where
  currentScore : ℚ
  rotationBonus : ℚ
  totalReviews : ℕ
  lastReviewDate : String
  reviewHistory : List ReviewEntry
  deriving DecidableEq, Repr

/-- `GlobalStats` (main.ts:32-35). -/
structure GlobalStats where
  totalReviews : ℕ
  totalPomodoroTime : ℚ
  deriving DecidableEq, Repr

/-- `StatsData` (main.ts:37-40); `projects` is a string-keyed object. -/
structure StatsData where
  projects : List (String × ProjectStats)
  globalStats : GlobalStats
  deriving DecidableEq, Repr

/-- `createEmptyStatsData` (main.ts:47-52). -/
def createEmptyStatsData : StatsData :=
  { projects := [], globalStats := { totalReviews := 0, totalPomodoroTime := 0 } }

/-- `ProjectsMemorySettings` (main.ts:7-18).  Note the spelling of the
persisted field `rapprochmentFactor` (no second "e"): this is the only
rapprochement-factor field the settings interface declares, and the only one
the settings tab (main.ts:484-497) ever writes. -/
structure ProjectsMemorySettings where
  projectTags : String
  defaultScore : ℚ
  archiveTag : String
  rotationBonus : ℚ
  rapprochmentFactor : ℚ
  recencyPenaltyWeight : ℚ
  scoresMigratedToStats : Bool
  pomodoroDuration : ℚ
  statsStoredInData : Bool
  deadlineProperty : String
  deriving DecidableEq, Repr

/-- `DEFAULT_SETTINGS` (main.ts:54-65). -/
def DEFAULT_SETTINGS : ProjectsMemorySettings :=
  { projectTags := "projet"
    defaultScore := 50
    archiveTag := "projet-fini"
    rotationBonus := 1/10
    rapprochmentFactor := 2/10
    recencyPenaltyWeight := 1/2
    scoresMigratedToStats := false
    pomodoroDuration := 25
    statsStoredInData := false
    deadlineProperty := "deadline" }

/-- Lookup in a JS-object-as-map: first (therefore unique) matching key. -/
def alookup {β : Type} : List (String × β) → String → Option β
  | [], _ => none
  | (k, v) :: rest, key => if k = key then some v else alookup rest key

/-- Assignment in a JS-object-as-map: replace in place when the key exists,
append at the end when it is fresh. -/
def aset {β : Type} : List (String × β) → String → β → List (String × β)
  | [], key, v => [(key, v)]
  | (k, w) :: rest, key, v =>
      if k = key then (key, v) :: rest else (k, w) :: aset rest key v

/-- The default record created on first access
(main.ts:198-204, 222-228, 255-261). -/
def defaultProjectStats (defaultScore : ℚ) : ProjectStats :=
  { currentScore := defaultScore
    rotationBonus := 0
    totalReviews := 0
    lastReviewDate := ""
    reviewHistory := [] }

/-- `getProjectStats` (main.ts:195-209): load the payload, lazily create the
default record for an unknown key (persisting the created entry), and return
the (possibly extended) payload together with the record. -/
def getProjectStats (s : ProjectsMemorySettings) (stats : StatsData)
    (filePath : String) : StatsData × ProjectStats :=
  match alookup stats.projects filePath with
  | some ps => (stats, ps)
  | none =>
      let ps := defaultProjectStats s.defaultScore
      ({ stats with projects := aset stats.projects filePath ps }, ps)

/-- `getProjectScore` (main.ts:212-215). -/
def getProjectScore (s : ProjectsMemorySettings) (stats : StatsData)
    (filePath : String) : StatsData × ℚ :=
  let r := getProjectStats s stats filePath
  (r.1, r.2.currentScore)

/-- The clamp `Math.min(100, Math.max(1, newScore))` (main.ts:233). -/
def clampScore (x : ℚ) : ℚ := min 100 (max 1 x)

/-- `updateProjectScore` (main.ts:218-236): create the default record if
absent, then store the clamped score. -/
def updateProjectScore (s : ProjectsMemorySettings) (stats : StatsData)
    (filePath : String) (newScore : ℚ) : StatsData :=
  let ps := (alookup stats.projects filePath).getD (defaultProjectStats s.defaultScore)
  { stats with
      projects := aset stats.projects filePath { ps with currentScore := clampScore newScore } }

/-- `incrementRotationBonus` (main.ts:239-248): add the configured bonus to
every project except the excluded one.  (The source's `|| 0` guard only
matters for undefined fields, which do not arise in the typed model.) -/
def incrementRotationBonus (s : ProjectsMemorySettings) (stats : StatsData)
    (excludedPath : String) : StatsData :=
  { stats with
      projects := stats.projects.map (fun kv =>
        if kv.1 = excludedPath then kv
        else (kv.1, { kv.2 with rotationBonus := kv.2.rotationBonus + s.rotationBonus })) }

/-- The history cap of `recordReviewAction` (main.ts:275-277):
`slice(-100)` keeps the last 100 entries when the array exceeds 100. -/
def capHistory (h : List ReviewEntry) : List ReviewEntry :=
  if h.length > 100 then h.drop (h.length - 100) else h

/-- `recordReviewAction` (main.ts:251-282): create the default record if
absent, reset its rotation bonus, increment its review count, stamp the
review date, append the history entry (capped at 100), and increment the
global review counter. -/
def recordReviewAction (s : ProjectsMemorySettings) (stats : StatsData)
    (filePath action : String) (scoreAfter : ℚ) (now : String) : StatsData :=
  let ps := (alookup stats.projects filePath).getD (defaultProjectStats s.defaultScore)
  let ps := { ps with
                rotationBonus := 0
                totalReviews := ps.totalReviews + 1
                lastReviewDate := now
                reviewHistory := capHistory (ps.reviewHistory ++ [⟨now, action, scoreAfter⟩]) }
  { stats with
      projects := aset stats.projects filePath ps
      globalStats := { stats.globalStats with
                         totalReviews := stats.globalStats.totalReviews + 1 } }

/-! ### ReviewModal (source file `part_002`) -/

/-- The value the review code obtains for
`Number(pluginAny.settings?.rapprochementFactor ?? 0.2)`
(part_002:107, 438, 482).  The persisted settings interface (main.ts:7-18)
declares only the field spelled `rapprochmentFactor`, `DEFAULT_SETTINGS`
(main.ts:54-65) and the settings tab (main.ts:484-497) only ever write that
spelling, and no code path writes a field spelled `rapprochementFactor`;
the property access therefore evaluates to `undefined` at run time and the
null-coalescing default `0.2` is used, whatever the configured
`rapprochmentFactor` is. -/
def readRapprochementFactor (_s : ProjectsMemorySettings) : ℚ := 2/10

/-- `n` iterations of the loop body
`effectiveScore = effectiveScore - rapprochment * (effectiveScore - 1)`
(part_002:108-112). -/
def applyRecencyPenaltySteps (r : ℚ) : ℕ → ℚ → ℚ
  | 0, e => e
  | n + 1, e => applyRecencyPenaltySteps r n (e - r * (e - 1))

/-- Session review counters (`sessionReviewCounts`, main.ts:73), an in-memory
string-keyed map. -/
abbrev SessionCounts := List (String × ℕ)

/-- `calculateEffectiveScore` (part_002:84-124).  The first component is the
stats payload after the call: the embedded `getProjectStats` call lazily
creates (and persists) a default record when the item has none.  The second
component is the computed effective score: base plus rotation bonus, then the
session recency penalty — `floor(count*weight)` full applications of the
less-often reduction plus one fractional application of the remainder —
using the always-defaulted rapprochement factor `readRapprochementFactor`.
(The `isFinite` guard of the source is vacuous over `ℚ`.) -/
def calculateEffectiveScore (s : ProjectsMemorySettings) (stats : StatsData)
    (sessionReviewCounts : SessionCounts) (baseScore : ℚ) (filePath : String) :
    StatsData × ℚ :=
  let r := getProjectStats s stats filePath
  let effectiveScore := baseScore + r.2.rotationBonus
  let weight := s.recencyPenaltyWeight
  let score :=
    if 0 < weight then
      let count := (alookup sessionReviewCounts filePath).getD 0
      if 0 < count then
        let totalMultiplier : ℚ := (count : ℚ) * weight
        let integerPart : ℕ := ⌊totalMultiplier⌋.toNat
        let fractionalPart : ℚ := totalMultiplier - (integerPart : ℚ)
        let rapprochment := readRapprochementFactor s
        let e1 := applyRecencyPenaltySteps rapprochment integerPart effectiveScore
        if 0 < fractionalPart then e1 - rapprochment * (e1 - 1) * fractionalPart
        else e1
      else effectiveScore
    else effectiveScore
  (r.1, score)

/-- The `updateScore` helper of the review modal (part_002:384-426): read the
record to decide `isFirstReview` (`totalReviews === 0`), persist the clamped
score unconditionally, and only when it is not a first review increment the
other projects' rotation bonus and record the action.  (The final
`calculateEffectiveScore` recomputation for display is omitted: at that point
the record exists, so the call has no durable effect and its value is
discarded.) -/
def updateScore (s : ProjectsMemorySettings) (stats : StatsData)
    (filePath : String) (newScore : ℚ) (action now : String) : StatsData :=
  let r := getProjectStats s stats filePath
  let isFirstReview := r.2.totalReviews = 0
  let stats2 := updateProjectScore s r.1 filePath newScore
  if isFirstReview then stats2
  else
    let stats3 := incrementRotationBonus s stats2 filePath
    recordReviewAction s stats3 filePath action newScore now

/-- The session-count bump common to every button handler
(part_002:441-448 etc.): `counts[path] = (counts[path] ?? 0) + 1`. -/
def bumpSessionCount (counts : SessionCounts) (filePath : String) : SessionCounts :=
  aset counts filePath ((alookup counts filePath).getD 0 + 1)

/-- `btn1` handler, action `"less-often"` (part_002:429-450): fetch the
current score, compute `s - rapprochment*(s - 1)` with the defaulted factor,
bump the session counter, and run `updateScore`. -/
def clickLessOften (s : ProjectsMemorySettings) (stats : StatsData)
    (counts : SessionCounts) (filePath now : String) : StatsData × SessionCounts :=
  let r := getProjectScore s stats filePath
  let rapprochment := readRapprochementFactor s
  let perte := rapprochment * (r.2 - 1)
  let counts1 := bumpSessionCount counts filePath
  (updateScore s r.1 filePath (r.2 - perte) "less-often" now, counts1)

/-- `btn2` handler, action `"ok"` (part_002:452-471): score unchanged. -/
def clickOk (s : ProjectsMemorySettings) (stats : StatsData)
    (counts : SessionCounts) (filePath now : String) : StatsData × SessionCounts :=
  let r := getProjectScore s stats filePath
  let counts1 := bumpSessionCount counts filePath
  (updateScore s r.1 filePath r.2 "ok" now, counts1)

/-- `btn3` handler, action `"more-often"` (part_002:473-494):
`s + rapprochment*(100 - s)` with the defaulted factor. -/
def clickMoreOften (s : ProjectsMemorySettings) (stats : StatsData)
    (counts : SessionCounts) (filePath now : String) : StatsData × SessionCounts :=
  let r := getProjectScore s stats filePath
  let rapprochment := readRapprochementFactor s
  let gain := rapprochment * (100 - r.2)
  let counts1 := bumpSessionCount counts filePath
  (updateScore s r.1 filePath (r.2 + gain) "more-often" now, counts1)

/-! ### Candidate selection (ReviewModal.onOpen, part_002:186-216) -/

/-- A collected candidate of the review modal's scan loop
(part_002:144, 177): file path, display name (`file.basename`), base score
and effective score. -/
structure Candidate where
  path : String
  basename : String
  baseScore : ℚ
  effectiveScore : ℚ
  deriving DecidableEq, Repr

/-- The partition loop (part_002:190-203): each candidate's stats record is
fetched (lazily creating it) and the candidate goes to `newProjects` when
`totalReviews === 0`, else to `existingProjects`; the payload is threaded
through the `getProjectStats` calls in candidate order. -/
def partitionCandidates (s : ProjectsMemorySettings) (stats : StatsData) :
    List Candidate → List Candidate × List Candidate × StatsData
  | [] => ([], [], stats)
  | c :: rest =>
      let r := getProjectStats s stats c.path
      let p := partitionCandidates s r.1 rest
      if r.2.totalReviews = 0 then (c :: p.1, p.2.1, p.2.2)
      else (p.1, c :: p.2.1, p.2.2)

/-- The comparator `(a, b) => a.file.basename.localeCompare(b.file.basename)`
(part_002:210), modelled as lexicographic order on the display name. -/
def candLe (a b : Candidate) : Bool := a.basename ≤ b.basename

/-- The comparator `(a, b) => b.effectiveScore - a.effectiveScore`
(part_002:214): descending effective score. -/
def candScoreGe (a b : Candidate) : Bool := b.effectiveScore ≤ a.effectiveScore

/-- The choice step of `ReviewModal.onOpen` (part_002:205-216): new projects
(`totalReviews === 0`) take absolute priority and are sorted alphabetically
by display name; otherwise the existing project with the highest effective
score is chosen.  Returns the chosen candidate (`none` only on an empty
candidate list, which the caller has already ruled out, part_002:180-184)
together with the threaded payload. -/
def selectNext (s : ProjectsMemorySettings) (stats : StatsData)
    (candidates : List Candidate) : Option Candidate × StatsData :=
  let p := partitionCandidates s stats candidates
  if p.1.length > 0 then ((p.1.mergeSort candLe).head?, p.2.2)
  else ((p.2.1.mergeSort candScoreGe).head?, p.2.2)

/-! ### Persisted container and load-failure fallback (main.ts:75-84, 146-154,
and the earlier iteration's `loadStatsData`, main.ts:655-690) -/

/-- The shape of `PersistedPayload` (main.ts:42-45). -/
structure PersistedPayload where
  settingsField : Option ProjectsMemorySettings
  statsField : Option StatsData
  deriving DecidableEq, Repr

/-- The possible results of `this.loadData()` as the container code
distinguishes them (main.ts:76-83): a container object carrying `settings`
and/or `stats` keys, a legacy flat settings object (an object with neither
key), or no usable data — `null`/non-object, which is what a missing or
unreadable data file yields. -/
inductive RawData
  | container (settingsField : Option ProjectsMemorySettings) (statsField : Option StatsData)
  | legacyFlat (legacySettings : ProjectsMemorySettings)
  | absent
  deriving DecidableEq, Repr

/-- `loadPersistedContainer` (main.ts:75-84), payload component: a container
object is spread as-is, a legacy flat object becomes the `settings` field,
and anything else yields the empty payload. -/
def loadPersistedContainer : RawData → PersistedPayload
  | .container sf tf => ⟨sf, tf⟩
  | .legacyFlat ls => ⟨some ls, none⟩
  | .absent => ⟨none, none⟩

/-- `loadStatsData` (main.ts:146-154): return the payload's stats when
present, otherwise create, persist and return the empty stats payload.
Only the returned stats matter to the claims treated here. -/
def loadStatsData (raw : RawData) : StatsData :=
  match (loadPersistedContainer raw).statsField with
  | some d => d
  | none => createEmptyStatsData

/-- The earlier iteration's `loadStatsData` (main.ts:655-690): the read of
`stats.json` is wrapped in `try`/`catch`; a missing file initialises empty
stats, and a thrown read/parse error is caught and also falls back to empty
stats.  The argument is the outcome of reading the file: `.ok (some d)` a
parsed file, `.ok none` no file, `.error e` a thrown error. -/
def loadStatsDataLegacy (readResult : Except String (Option StatsData)) : StatsData :=
  match readResult with
  | .ok (some d) => d
  | .ok none => createEmptyStatsData
  | .error _ => createEmptyStatsData

/-! ### Migrations (main.ts:168-192 and 285-344) -/

/-- A markdown file as the migration sees it through the metadata cache
(main.ts:306-324): its path, its cached tag strings (leading `#` included),
and its frontmatter `pertinence_score` when present and finite.  (A present
but non-numeric value takes the same default branch as an absent one, so both
are modelled as `none`.)  Files without a cache are skipped by the source and
are not modelled. -/
structure VaultFile where
  path : String
  tags : List String
  pertinenceScore : Option ℚ
  deriving DecidableEq, Repr

/-- The whole state the migration entry points touch: the in-memory
`this.settings`, the persisted payload, the legacy standalone `stats.json`
(`none` once removed or never present), and the vault's markdown files. -/
structure PluginState where
  settings : ProjectsMemorySettings
  payload : PersistedPayload
  legacyStatsFile : Option StatsData
  vaultFiles : List VaultFile
  deriving DecidableEq, Repr

/-- `saveSettings` (main.ts:136-143): write the in-memory settings into the
persisted container, keeping its other key. -/
def saveSettings (st : PluginState) : PluginState :=
  { st with payload := { st.payload with settingsField := some st.settings } }

/-- `saveStatsData` (main.ts:157-166): write the stats into the container,
also refreshing its settings key from the in-memory settings (which are
always initialised by `onload`). -/
def saveStatsData (st : PluginState) (data : StatsData) : PluginState :=
  { st with payload := { settingsField := some st.settings, statsField := some data } }

/-- `loadStatsData` as used while migrating (main.ts:146-154), threading the
plugin state: return the persisted stats, or create, persist and return the
empty stats payload. -/
def loadStatsDataSt (st : PluginState) : PluginState × StatsData :=
  match st.payload.statsField with
  | some d => (st, d)
  | none => (saveStatsData st createEmptyStatsData, createEmptyStatsData)

/-- `migrateStatsToSaveData` (main.ts:168-192): gated by the
`statsStoredInData` flag; if the payload already holds stats just set the
flag; otherwise relocate the legacy standalone stats file (when it exists)
into the payload and delete it, then set the flag.  Every path persists the
settings with the flag set. -/
def migrateStatsToSaveData (st : PluginState) : PluginState :=
  if st.settings.statsStoredInData then st
  else if st.payload.statsField.isSome then
    saveSettings { st with settings := { st.settings with statsStoredInData := true } }
  else
    let st1 :=
      match st.legacyStatsFile with
      | some legacy => { saveStatsData st legacy with legacyStatsFile := none }
      | none => st
    saveSettings { st1 with settings := { st1.settings with statsStoredInData := true } }

/-- The tag normalisation of `migrateScoresToStats` (main.ts:288-293):
split on commas, trim, drop empties, prefix `#` when missing. -/
def parseProjectTags (projectTags : String) : List String :=
  (((projectTags.splitOn ",").map String.trim).filter (fun t => t ≠ "")).map
    (fun t => if t.startsWith "#" then t else "#" ++ t)

/-- The per-file step of `migrateScoresToStats` (main.ts:306-335): skip files
without a matching project tag or with an existing stats record; otherwise
seed a record whose score is the clamped frontmatter `pertinence_score` when
present, else `defaultScore`. -/
def migrateFileStep (s : ProjectsMemorySettings) (tagsArray : List String)
    (stats : StatsData) (f : VaultFile) : StatsData :=
  if f.tags.any (fun t => tagsArray.contains t) then
    if (alookup stats.projects f.path).isSome then stats
    else
      let initialScore :=
        match f.pertinenceScore with
        | some q => clampScore q
        | none => s.defaultScore
      { stats with
          projects := aset stats.projects f.path
            { defaultProjectStats s.defaultScore with currentScore := initialScore } }
  else stats

/-- `migrateScoresToStats` (main.ts:285-344): gated by the
`scoresMigratedToStats` flag; with no configured tags just set the flag;
otherwise seed records for tagged files lacking one, persist the stats, and
set the flag. -/
def migrateScoresToStats (st : PluginState) : PluginState :=
  if st.settings.scoresMigratedToStats then st
  else
    let tagsArray := parseProjectTags st.settings.projectTags
    if tagsArray.isEmpty then
      saveSettings { st with settings := { st.settings with scoresMigratedToStats := true } }
    else
      let r := loadStatsDataSt st
      let stats3 := st.vaultFiles.foldl (migrateFileStep st.settings tagsArray) r.2
      let st2 := saveStatsData r.1 stats3
      saveSettings { st2 with settings := { st2.settings with scoresMigratedToStats := true } }

/-- The migration sequence run by `onload` (main.ts:90-92):
`migrateStatsToSaveData` then `migrateScoresToStats`. -/
def runMigrations (st : PluginState) : PluginState :=
  migrateScoresToStats (migrateStatsToSaveData st)

/-! ### Sequences of stats-store writes -/

/-- The write operations of the stats store: lazy record creation
(`getProjectStats`), score update (`updateProjectScore`, reached by every
scoring action), rotation-bonus accrual (`incrementRotationBonus`) and
counted-review bookkeeping (`recordReviewAction`). -/
inductive StoreOp
  | getOrCreate (filePath : String)
  | setScore (filePath : String) (newScore : ℚ)
  | incBonus (excludedPath : String)
  | record (filePath action : String) (scoreAfter : ℚ) (now : String)
  deriving DecidableEq, Repr

def applyStoreOp (s : ProjectsMemorySettings) (stats : StatsData) : StoreOp → StatsData
  | .getOrCreate p => (getProjectStats s stats p).1
  | .setScore p q => updateProjectScore s stats p q
  | .incBonus p => incrementRotationBonus s stats p
  | .record p a q now => recordReviewAction s stats p a q now

def applyStoreOps (s : ProjectsMemorySettings) (stats : StatsData)
    (ops : List StoreOp) : StatsData :=
  ops.foldl (applyStoreOp s) stats

/-- Every stored score lies in `[1, 100]`. -/
def ScoreInv (stats : StatsData) : Prop :=
  ∀ kv ∈ stats.projects, 1 ≤ kv.2.currentScore ∧ kv.2.currentScore ≤ 100

/-- Every stored review history has at most 100 entries. -/
def HistInv (stats : StatsData) : Prop :=
  ∀ kv ∈ stats.projects, kv.2.reviewHistory.length ≤ 100

/-- A sequence of counted reviews of one item: `recordReviewAction` folded
over `(action, scoreAfter, now)` triples. -/
def recordMany (s : ProjectsMemorySettings) (filePath : String)
    (stats : StatsData) (rs : List (String × ℚ × String)) : StatsData :=
  rs.foldl (fun st r => recordReviewAction s st filePath r.1 r.2.1 r.2.2) stats

/-- The history entry produced for an `(action, scoreAfter, now)` triple. -/
def toEntry (r : String × ℚ × String) : ReviewEntry := ⟨r.2.2, r.1, r.2.1⟩

/-! ### Observation helpers used in the theorem statements -/

/-- The stored review count of an item, an absent record counting as 0 (the
value its lazily created record would carry). -/
def storedTotalReviews (stats : StatsData) (filePath : String) : ℕ :=
  ((alookup stats.projects filePath).map ProjectStats.totalReviews).getD 0

def rotationOf (stats : StatsData) (filePath : String) : Option ℚ :=
  (alookup stats.projects filePath).map ProjectStats.rotationBonus

def scoreOf (stats : StatsData) (filePath : String) : Option ℚ :=
  (alookup stats.projects filePath).map ProjectStats.currentScore

def historyOf (stats : StatsData) (filePath : String) : Option (List ReviewEntry) :=
  (alookup stats.projects filePath).map ProjectStats.reviewHistory

def reviewsOf (stats : StatsData) (filePath : String) : Option ℕ :=
  (alookup stats.projects filePath).map ProjectStats.totalReviews

/-! ### Association-list lemmas -/

theorem alookup_aset_self {β : Type} (l : List (String × β)) (k : String) (v : β) :
    alookup (aset l k v) k = some v := by
  induction l with
  | nil => simp [aset, alookup]
  | cons kv rest ih =>
      by_cases h : kv.1 = k
      · simp [aset, h, alookup]
      · simpa [aset, h, alookup] using ih

theorem alookup_aset_ne {β : Type} (l : List (String × β)) (k k' : String) (v : β)
    (h : k' ≠ k) : alookup (aset l k v) k' = alookup l k' := by
  induction l with
  | nil =>
      have hne : ¬ k = k' := fun hk => h hk.symm
      simp [aset, alookup, hne]
  | cons kv rest ih =>
      by_cases hk : kv.1 = k
      · have hne : ¬ k = k' := fun hk' => h hk'.symm
        have hne' : ¬ kv.1 = k' := by rw [hk]; exact hne
        simp [aset, hk, alookup, hne, hne']
      · by_cases hk' : kv.1 = k'
        · simp [aset, hk, alookup, hk', h]
        · simp only [aset, if_neg hk, alookup, if_neg hk']
          exact ih

theorem alookup_mapVal {β : Type} (g : String → β → β) (l : List (String × β))
    (k : String) :
    alookup (l.map (fun kv => (kv.1, g kv.1 kv.2))) k = (alookup l k).map (g k) := by
  induction l with
  | nil => simp [alookup]
  | cons kv rest ih =>
      by_cases h : kv.1 = k
      · subst h; simp [alookup]
      · simp only [List.map_cons, alookup, if_neg h]
        exact ih

theorem mem_aset {β : Type} {l : List (String × β)} {k : String} {v : β} {kv : String × β}
    (h : kv ∈ aset l k v) : kv = (k, v) ∨ kv ∈ l := by
  induction l with
  | nil => simpa [aset] using h
  | cons kw rest ih =>
      by_cases hk : kw.1 = k
      · rw [aset, if_pos hk] at h
        rcases List.mem_cons.mp h with h' | h'
        · exact Or.inl h'
        · exact Or.inr (List.mem_cons_of_mem _ h')
      · rw [aset, if_neg hk] at h
        rcases List.mem_cons.mp h with h' | h'
        · exact Or.inr (h' ▸ List.mem_cons_self kw rest)
        · rcases ih h' with h'' | h''
          · exact Or.inl h''
          · exact Or.inr (List.mem_cons_of_mem _ h'')

/-! ### Claim C1 -/

/-- Claim C1 (code divergence): evaluating the spec's end-to-end scenario on
the embedded code.  Item `"X"` has no stats record (the payload holds only
`"Y"` with 3 counted reviews) and `defaultScore = 50`.  After a first `ok`
click the score is 50, `totalReviews` is 0 and the history is empty — the
first half of the claim.  After a second `less-often` click the score is
`50 - 0.2*(50-1) = 40.2 = 201/5`, but — contrary to the claim —
`totalReviews` is still 0, the history is still empty, `"Y"`'s rotation
bonus is unchanged at 0 and the global review counter is unchanged at 3:
the uncounted first review left `totalReviews` at 0, so the
`totalReviews === 0` test of `updateScore` (part_002:390) classifies the
second review as a first review again and skips all counted-review
bookkeeping. -/
theorem claim1_second_review_still_uncounted :
    (let stats0 : StatsData :=
      { projects := [("Y", ⟨60, 0, 3, "", []⟩)], globalStats := ⟨3, 0⟩ }
     let r1 := clickOk DEFAULT_SETTINGS stats0 [] "X" "t1"
     let r2 := clickLessOften DEFAULT_SETTINGS r1.1 r1.2 "X" "t2"
     scoreOf r1.1 "X" = some 50 ∧
     reviewsOf r1.1 "X" = some 0 ∧
     historyOf r1.1 "X" = some [] ∧
     scoreOf r2.1 "X" = some (201/5) ∧
     reviewsOf r2.1 "X" = some 0 ∧
     historyOf r2.1 "X" = some [] ∧
     rotationOf r2.1 "Y" = some 0 ∧
     r2.1.globalStats.totalReviews = 3) := by
  set_option maxRecDepth 4000 in with_unfolding_all decide

/-! ### Claim C7 -/

/-- Claim C7, counterexample: the claim states that from score 50 with
factor 0.2 the `less-often` action yields 42.  On the embedded handler the
persisted score after `less-often` is `50 - 0.2*(50-1) = 40.2 = 201/5`,
which is not 42. -/
theorem claim7_counterexample :
    (let stats0 : StatsData :=
      { projects := [("X", ⟨50, 0, 5, "", []⟩)], globalStats := ⟨5, 0⟩ }
     let r1 := clickLessOften DEFAULT_SETTINGS stats0 [] "X" "t1"
     scoreOf r1.1 "X" = some (201/5) ∧ (201/5 : ℚ) ≠ 42) := by
  set_option maxRecDepth 4000 in with_unfolding_all decide

/-- Claim C7 (amended): starting from score 50, the `less-often` click
persists `50 - 0.2*(50-1) = 40.2`, and a following `more-often` click
persists `40.2 + 0.2*(100-40.2) = 52.16 = 1304/25`, which differs from the
original 50: a `less-often`/`more-often` round trip with the same (defaulted)
rapprochement factor does not return to the original score. -/
theorem claim7_gap_closing_not_invertible :
    (let stats0 : StatsData :=
      { projects := [("X", ⟨50, 0, 5, "", []⟩)], globalStats := ⟨5, 0⟩ }
     let r1 := clickLessOften DEFAULT_SETTINGS stats0 [] "X" "t1"
     let r2 := clickMoreOften DEFAULT_SETTINGS r1.1 r1.2 "X" "t2"
     scoreOf r1.1 "X" = some (201/5) ∧
     scoreOf r2.1 "X" = some (1304/25) ∧
     (1304/25 : ℚ) ≠ 50) := by
  set_option maxRecDepth 4000 in with_unfolding_all decide

/-! ### Claim C8 -/

/-- Claim C8, counterexample: computing the effective score of an item that
has no stats record does mutate the durable payload — on the empty payload,
`calculateEffectiveScore` leaves behind a freshly created default record,
because its `getProjectStats` call persists the lazily created entry
(main.ts:205-206). -/
theorem claim8_counterexample :
    (calculateEffectiveScore DEFAULT_SETTINGS createEmptyStatsData [] 50 "a").1 ≠
      createEmptyStatsData := by
  set_option maxRecDepth 4000 in with_unfolding_all decide

/-- Claim C8 (amended): for an item that already has a stats record, computing
the effective score leaves the persisted payload unchanged for every payload
and session context — in particular the recency penalty is never written to
storage.  (When the record is absent, the only durable change is the lazy
creation of the default record, as the counterexample shows.) -/
theorem claim8_effective_score_is_pure
    (s : ProjectsMemorySettings) (stats : StatsData) (counts : SessionCounts)
    (baseScore : ℚ) (filePath : String)
    (hrec : (alookup stats.projects filePath).isSome) :
    (calculateEffectiveScore s stats counts baseScore filePath).1 = stats := by
  unfold calculateEffectiveScore getProjectStats
  cases h : alookup stats.projects filePath with
  | some ps => simp [h]
  | none => rw [h] at hrec; simp at hrec

/-- Witness for C8: a concrete payload holding a record for `"a"`, a session
context with one prior review of `"a"`, and the computation leaving the
payload untouched. -/
theorem claim8_witness :
    (calculateEffectiveScore DEFAULT_SETTINGS
        { projects := [("a", ⟨40, 2, 3, "t0", []⟩)], globalStats := ⟨3, 0⟩ }
        [("a", 1)] 40 "a").1 =
      { projects := [("a", ⟨40, 2, 3, "t0", []⟩)], globalStats := ⟨3, 0⟩ } :=
  claim8_effective_score_is_pure DEFAULT_SETTINGS
    { projects := [("a", ⟨40, 2, 3, "t0", []⟩)], globalStats := ⟨3, 0⟩ }
    [("a", 1)] 40 "a" (by decide)

/-! ### Claim C9 -/

/-- Claim C9: when the read of the underlying persisted payload yields no
usable data (`null`/non-object, the result of a missing or unreadable data
file), `loadStatsData` returns the empty stats payload — no projects, zero
global counters; and in the earlier iteration, whose stats file read is
wrapped in `try`/`catch`, every thrown read error is caught and also falls
back to the empty stats payload instead of propagating to the selector. -/
theorem claim9_read_failure_falls_back_to_empty :
    ((loadStatsData RawData.absent).projects = [] ∧
     (loadStatsData RawData.absent).globalStats.totalReviews = 0 ∧
     (loadStatsData RawData.absent).globalStats.totalPomodoroTime = 0) ∧
    (∀ e : String, loadStatsDataLegacy (Except.error e) = createEmptyStatsData) :=
  ⟨⟨rfl, rfl, rfl⟩, fun _ => rfl⟩

/-! ### Claim C10 -/

/-- Claim C10: the stored `rapprochmentFactor` setting has no effect.  The
scoring and penalty code reads the differently spelled, never-written
property `settings.rapprochementFactor`, which defaults to the constant 0.2;
consequently two runs differing only in the stored `rapprochmentFactor`
produce identical `less-often`/`ok`/`more-often` results and identical
effective scores. -/
theorem claim10_rapprochement_setting_has_no_effect :
    ∀ (s : ProjectsMemorySettings) (q : ℚ) (stats : StatsData)
      (counts : SessionCounts) (filePath now : String) (baseScore : ℚ),
      readRapprochementFactor s = 2/10 ∧
      clickLessOften { s with rapprochmentFactor := q } stats counts filePath now =
        clickLessOften s stats counts filePath now ∧
      clickOk { s with rapprochmentFactor := q } stats counts filePath now =
        clickOk s stats counts filePath now ∧
      clickMoreOften { s with rapprochmentFactor := q } stats counts filePath now =
        clickMoreOften s stats counts filePath now ∧
      calculateEffectiveScore { s with rapprochmentFactor := q } stats counts baseScore filePath =
        calculateEffectiveScore s stats counts baseScore filePath :=
  fun _ _ _ _ _ _ _ => ⟨rfl, rfl, rfl, rfl, rfl⟩

/-! ### Claim C4 -/

theorem alookup_incrementRotationBonus (s : ProjectsMemorySettings)
    (stats : StatsData) (excludedPath p : String) :
    alookup (incrementRotationBonus s stats excludedPath).projects p =
      (alookup stats.projects p).map (fun ps =>
        if p = excludedPath then ps
        else { ps with rotationBonus := ps.rotationBonus + s.rotationBonus }) := by
  unfold incrementRotationBonus
  have hfun :
      (fun kv : String × ProjectStats =>
        if kv.1 = excludedPath then kv
        else (kv.1, { kv.2 with rotationBonus := kv.2.rotationBonus + s.rotationBonus })) =
      (fun kv : String × ProjectStats =>
        (kv.1, if kv.1 = excludedPath then kv.2
               else { kv.2 with rotationBonus := kv.2.rotationBonus + s.rotationBonus })) := by
    funext kv
    obtain ⟨k, v⟩ := kv
    by_cases h : k = excludedPath
    · subst h; simp
    · simp [h]
  rw [hfun]
  simpa using alookup_mapVal
    (fun k v => if k = excludedPath then v
                else { v with rotationBonus := v.rotationBonus + s.rotationBonus })
    stats.projects p

/-- Claim C4: a counted (non-first) review of `A` in a payload holding
distinct items `A`, `B`, `C` raises the rotation bonus of `B` and of `C` by
exactly the configured rotation-bonus setting and leaves `A`'s rotation
bonus at 0: `updateScore` calls `incrementRotationBonus A` (adding the bonus
to every other item) and then `recordReviewAction A` (resetting `A`'s
bonus). -/
theorem claim4_rotation_bonus_transfer
    (s : ProjectsMemorySettings) (stats : StatsData) (A B C : String)
    (psA psB psC : ProjectStats) (newScore : ℚ) (action now : String)
    (hA : alookup stats.projects A = some psA) (hcounted : psA.totalReviews ≠ 0)
    (hB : alookup stats.projects B = some psB) (hC : alookup stats.projects C = some psC)
    (hBA : B ≠ A) (hCA : C ≠ A) (_hBC : B ≠ C) :
    rotationOf (updateScore s stats A newScore action now) B =
      some (psB.rotationBonus + s.rotationBonus) ∧
    rotationOf (updateScore s stats A newScore action now) C =
      some (psC.rotationBonus + s.rotationBonus) ∧
    rotationOf (updateScore s stats A newScore action now) A = some 0 := by
  unfold updateScore getProjectStats
  rw [hA]
  simp only [if_neg hcounted]
  unfold recordReviewAction rotationOf
  refine ⟨?_, ?_, ?_⟩
  · rw [alookup_aset_ne _ _ _ _ hBA, alookup_incrementRotationBonus]
    unfold updateProjectScore
    rw [alookup_aset_ne _ _ _ _ hBA, hB]
    simp [hBA]
  · rw [alookup_aset_ne _ _ _ _ hCA, alookup_incrementRotationBonus]
    unfold updateProjectScore
    rw [alookup_aset_ne _ _ _ _ hCA, hC]
    simp [hCA]
  · rw [alookup_aset_self]
    simp

/-- Witness for C4: a concrete three-item payload; after a counted review of
`"A"`, items `"B"` and `"C"` each gained `0.1` rotation bonus and `"A"`'s
bonus is 0. -/
theorem claim4_witness :
    rotationOf (updateScore DEFAULT_SETTINGS
        { projects := [("A", ⟨50, 7, 2, "", []⟩), ("B", ⟨60, 1, 1, "", []⟩),
                       ("C", ⟨70, 0, 4, "", []⟩)],
          globalStats := ⟨7, 0⟩ } "A" 55 "ok" "t") "B" = some (1 + 1/10) ∧
    rotationOf (updateScore DEFAULT_SETTINGS
        { projects := [("A", ⟨50, 7, 2, "", []⟩), ("B", ⟨60, 1, 1, "", []⟩),
                       ("C", ⟨70, 0, 4, "", []⟩)],
          globalStats := ⟨7, 0⟩ } "A" 55 "ok" "t") "C" = some (0 + 1/10) ∧
    rotationOf (updateScore DEFAULT_SETTINGS
        { projects := [("A", ⟨50, 7, 2, "", []⟩), ("B", ⟨60, 1, 1, "", []⟩),
                       ("C", ⟨70, 0, 4, "", []⟩)],
          globalStats := ⟨7, 0⟩ } "A" 55 "ok" "t") "A" = some 0 :=
  claim4_rotation_bonus_transfer DEFAULT_SETTINGS
    { projects := [("A", ⟨50, 7, 2, "", []⟩), ("B", ⟨60, 1, 1, "", []⟩),
                   ("C", ⟨70, 0, 4, "", []⟩)],
      globalStats := ⟨7, 0⟩ }
    "A" "B" "C" ⟨50, 7, 2, "", []⟩ ⟨60, 1, 1, "", []⟩ ⟨70, 0, 4, "", []⟩ 55 "ok" "t"
    (by decide) (by decide) (by decide) (by decide) (by decide) (by decide) (by decide)

/-! ### Claim C3 -/

theorem mem_of_alookup_eq_some {β : Type} {l : List (String × β)} {k : String} {v : β}
    (h : alookup l k = some v) : (k, v) ∈ l := by
  induction l with
  | nil => simp [alookup] at h
  | cons kv rest ih =>
      obtain ⟨k1, v1⟩ := kv
      by_cases hk : k1 = k
      · subst hk
        rw [alookup, if_pos rfl] at h
        cases h
        exact List.mem_cons_self _ rest
      · rw [alookup, if_neg hk] at h
        exact List.mem_cons_of_mem _ (ih h)

theorem clampScore_mem_Icc (x : ℚ) : 1 ≤ clampScore x ∧ clampScore x ≤ 100 := by
  unfold clampScore
  constructor
  · exact le_min (by norm_num) (le_max_left 1 x)
  · exact min_le_left 100 (max 1 x)

theorem scoreInv_applyStoreOp (s : ProjectsMemorySettings) (stats : StatsData)
    (op : StoreOp) (hd1 : 1 ≤ s.defaultScore) (hd2 : s.defaultScore ≤ 100)
    (hinv : ScoreInv stats) : ScoreInv (applyStoreOp s stats op) := by
  cases op with
  | getOrCreate p =>
      unfold applyStoreOp getProjectStats
      cases h : alookup stats.projects p with
      | some ps => simp only [h]; exact hinv
      | none =>
          simp only [h]
          intro kv hkv
          simp only at hkv
          rcases mem_aset hkv with h' | h'
          · subst h'
            exact ⟨hd1, hd2⟩
          · exact hinv kv h'
  | setScore p q =>
      unfold applyStoreOp updateProjectScore
      intro kv hkv
      simp only at hkv
      rcases mem_aset hkv with h' | h'
      · subst h'
        exact clampScore_mem_Icc q
      · exact hinv kv h'
  | incBonus p =>
      unfold applyStoreOp incrementRotationBonus
      intro kv hkv
      simp only [List.mem_map] at hkv
      obtain ⟨kv0, hkv0, hEq⟩ := hkv
      have h0 := hinv kv0 hkv0
      by_cases h : kv0.1 = p
      · rw [if_pos h] at hEq
        exact hEq ▸ h0
      · rw [if_neg h] at hEq
        subst hEq
        exact h0
  | record p a q now =>
      unfold applyStoreOp recordReviewAction
      intro kv hkv
      simp only at hkv
      rcases mem_aset hkv with h' | h'
      · subst h'
        simp only
        cases h : alookup stats.projects p with
        | some ps =>
            have := hinv (p, ps) (mem_of_alookup_eq_some h)
            simpa [h] using this
        | none => simpa [h, defaultProjectStats] using ⟨hd1, hd2⟩
      · exact hinv kv h'

/-- Claim C3: along every sequence of stats-store writes — lazy record
creation, score update through any action (the action pipeline routes every
new score through the clamp of `updateProjectScore`), rotation-bonus accrual
and counted-review bookkeeping — every stored `currentScore` stays in
`[1, 100]`, for every input score, provided the configured default score is
itself in `[1, 100]` (it is 50 and has no settings-tab control) and the
starting payload satisfies the invariant. -/
theorem claim3_score_range_invariant (s : ProjectsMemorySettings)
    (stats : StatsData) (ops : List StoreOp)
    (hd1 : 1 ≤ s.defaultScore) (hd2 : s.defaultScore ≤ 100)
    (hinv : ScoreInv stats) : ScoreInv (applyStoreOps s stats ops) := by
  induction ops generalizing stats with
  | nil => exact hinv
  | cons op rest ih =>
      exact ih (applyStoreOp s stats op) (scoreInv_applyStoreOp s stats op hd1 hd2 hinv)

/-- Witness for C3: from the empty payload, create a record, push an
out-of-range score through the pipeline, record the action, and accrue a
bonus — all stored scores remain in range. -/
theorem claim3_witness :
    ScoreInv (applyStoreOps DEFAULT_SETTINGS createEmptyStatsData
      [.getOrCreate "a", .setScore "a" 1000, .record "a" "more-often" 1000 "t",
       .setScore "b" (-5), .incBonus "a"]) :=
  claim3_score_range_invariant DEFAULT_SETTINGS createEmptyStatsData
    [.getOrCreate "a", .setScore "a" 1000, .record "a" "more-often" 1000 "t",
     .setScore "b" (-5), .incBonus "a"]
    (by norm_num [DEFAULT_SETTINGS]) (by norm_num [DEFAULT_SETTINGS])
    (by intro kv hkv; simp [createEmptyStatsData] at hkv)

/-! ### Claim C5 -/

theorem capHistory_length_le (h : List ReviewEntry) : (capHistory h).length ≤ 100 := by
  unfold capHistory
  split
  · rename_i hc
    rw [List.length_drop]
    omega
  · rename_i hc
    omega

theorem capHistory_eq (h : List ReviewEntry) :
    capHistory h = h.drop (h.length - 100) := by
  unfold capHistory
  split
  · rfl
  · rename_i hc
    have h0 : h.length - 100 = 0 := by omega
    rw [h0, List.drop_zero]

/-- Keeping the last `n` elements commutes with later appends: the last `n`
of `(last n of x) ++ m` are the last `n` of `x ++ m`. -/
theorem dropToLast_append {α : Type} (n : ℕ) (x m : List α) :
    (x.drop (x.length - n) ++ m).drop ((x.drop (x.length - n) ++ m).length - n) =
      (x ++ m).drop ((x ++ m).length - n) := by
  rcases le_or_lt x.length n with hle | hlt
  · rw [Nat.sub_eq_zero_of_le hle, List.drop_zero]
  · have hlen : (x.drop (x.length - n)).length = n := by
      rw [List.length_drop]
      omega
    rw [List.drop_append_eq_append_drop, List.drop_append_eq_append_drop,
      List.drop_drop]
    simp only [List.length_append, List.length_drop]
    congr 1
    · congr 1
      omega
    · congr 1
      omega

theorem histInv_applyStoreOp (s : ProjectsMemorySettings) (stats : StatsData)
    (op : StoreOp) (hinv : HistInv stats) : HistInv (applyStoreOp s stats op) := by
  cases op with
  | getOrCreate p =>
      unfold applyStoreOp getProjectStats
      cases h : alookup stats.projects p with
      | some ps => simp only [h]; exact hinv
      | none =>
          simp only [h]
          intro kv hkv
          simp only at hkv
          rcases mem_aset hkv with h' | h'
          · subst h'
            simp [defaultProjectStats]
          · exact hinv kv h'
  | setScore p q =>
      unfold applyStoreOp updateProjectScore
      intro kv hkv
      simp only at hkv
      rcases mem_aset hkv with h' | h'
      · subst h'
        simp only
        cases h : alookup stats.projects p with
        | some ps =>
            have := hinv (p, ps) (mem_of_alookup_eq_some h)
            simpa [h] using this
        | none => simp [h, defaultProjectStats]
      · exact hinv kv h'
  | incBonus p =>
      unfold applyStoreOp incrementRotationBonus
      intro kv hkv
      simp only [List.mem_map] at hkv
      obtain ⟨kv0, hkv0, hEq⟩ := hkv
      have h0 := hinv kv0 hkv0
      by_cases h : kv0.1 = p
      · rw [if_pos h] at hEq
        exact hEq ▸ h0
      · rw [if_neg h] at hEq
        subst hEq
        exact h0
  | record p a q now =>
      unfold applyStoreOp recordReviewAction
      intro kv hkv
      simp only at hkv
      rcases mem_aset hkv with h' | h'
      · subst h'
        simpa using capHistory_length_le _
      · exact hinv kv h'

theorem alookup_recordReviewAction_self (s : ProjectsMemorySettings)
    (stats : StatsData) (filePath action : String) (scoreAfter : ℚ) (now : String)
    (ps : ProjectStats) (h : alookup stats.projects filePath = some ps) :
    alookup (recordReviewAction s stats filePath action scoreAfter now).projects filePath =
      some { ps with
               rotationBonus := 0
               totalReviews := ps.totalReviews + 1
               lastReviewDate := now
               reviewHistory := capHistory (ps.reviewHistory ++ [⟨now, action, scoreAfter⟩]) } := by
  unfold recordReviewAction
  rw [h]
  simpa using alookup_aset_self _ _ _

theorem recordMany_history (s : ProjectsMemorySettings) (filePath : String)
    (rs : List (String × ℚ × String)) :
    ∀ (stats : StatsData) (ps : ProjectStats),
      alookup stats.projects filePath = some ps → ps.reviewHistory.length ≤ 100 →
      ∃ ps', alookup (recordMany s filePath stats rs).projects filePath = some ps' ∧
        ps'.reviewHistory =
          (ps.reviewHistory ++ rs.map toEntry).drop
            ((ps.reviewHistory ++ rs.map toEntry).length - 100) := by
  induction rs with
  | nil =>
      intro stats ps h hlen
      refine ⟨ps, h, ?_⟩
      simp [Nat.sub_eq_zero_of_le hlen]
  | cons r rest ih =>
      intro stats ps h hlen
      have hstep := alookup_recordReviewAction_self s stats filePath r.1 r.2.1 r.2.2 ps h
      obtain ⟨ps', h', hh⟩ := ih _ _ hstep (by simpa using capHistory_length_le _)
      refine ⟨ps', h', ?_⟩
      rw [hh]
      simp only [capHistory_eq]
      have hgen := dropToLast_append 100 (ps.reviewHistory ++ [toEntry r]) (rest.map toEntry)
      simpa [toEntry, List.append_assoc] using hgen

/-- Claim C5: (a) along every sequence of stats-store writes every project's
history keeps at most 100 entries (`recordReviewAction` caps with
`slice(-100)`, creation starts empty, no other write touches the history);
(b) after a sequence of 150 counted reviews of an item starting with an
empty history, the retained entries are exactly the 100 most recent by
insertion order — the first 50 are dropped. -/
theorem claim5_review_history_cap :
    (∀ (s : ProjectsMemorySettings) (stats : StatsData) (ops : List StoreOp),
        HistInv stats → HistInv (applyStoreOps s stats ops)) ∧
    (∀ (s : ProjectsMemorySettings) (stats : StatsData) (filePath : String)
        (ps : ProjectStats) (rs : List (String × ℚ × String)),
        alookup stats.projects filePath = some ps → ps.reviewHistory = [] →
        rs.length = 150 →
        ∃ ps', alookup (recordMany s filePath stats rs).projects filePath = some ps' ∧
          ps'.reviewHistory = (rs.map toEntry).drop 50) := by
  constructor
  · intro s stats ops hinv
    induction ops generalizing stats with
    | nil => exact hinv
    | cons op rest ih =>
        exact ih (applyStoreOp s stats op) (histInv_applyStoreOp s stats op hinv)
  · intro s stats filePath ps rs h hempty hlen
    obtain ⟨ps', h', hh⟩ := recordMany_history s filePath rs stats ps h (by simp [hempty])
    refine ⟨ps', h', ?_⟩
    rw [hh, hempty]
    simp [hlen]

/-- Witness for C5: a recorded action from the empty payload keeps the cap,
and 150 identical counted reviews of `"a"` retain exactly the last 100
entries. -/
theorem claim5_witness :
    HistInv (applyStoreOps DEFAULT_SETTINGS createEmptyStatsData
      [.record "a" "ok" 50 "t"]) ∧
    (∃ ps', alookup (recordMany DEFAULT_SETTINGS "a"
          { projects := [("a", ⟨50, 0, 0, "", []⟩)], globalStats := ⟨0, 0⟩ }
          (List.replicate 150 ("ok", (50 : ℚ), "d"))).projects "a" = some ps' ∧
        ps'.reviewHistory =
          ((List.replicate 150 ("ok", (50 : ℚ), "d")).map toEntry).drop 50) :=
  ⟨claim5_review_history_cap.1 DEFAULT_SETTINGS createEmptyStatsData
      [.record "a" "ok" 50 "t"]
      (by intro kv hkv; simp [createEmptyStatsData] at hkv),
   claim5_review_history_cap.2 DEFAULT_SETTINGS
      { projects := [("a", ⟨50, 0, 0, "", []⟩)], globalStats := ⟨0, 0⟩ }
      "a" ⟨50, 0, 0, "", []⟩ (List.replicate 150 ("ok", (50 : ℚ), "d"))
      (by decide) rfl (by simp)⟩

/-! ### Claim C2 -/

theorem storedTotalReviews_getProjectStats (s : ProjectsMemorySettings)
    (stats : StatsData) (p q : String) :
    storedTotalReviews (getProjectStats s stats p).1 q = storedTotalReviews stats q := by
  unfold getProjectStats storedTotalReviews
  cases h : alookup stats.projects p with
  | some ps => simp [h]
  | none =>
      simp only [h]
      by_cases hq : q = p
      · subst hq
        rw [alookup_aset_self]
        simp [h, defaultProjectStats]
      · rw [alookup_aset_ne _ _ _ _ hq]

theorem getProjectStats_snd_totalReviews (s : ProjectsMemorySettings)
    (stats : StatsData) (p : String) :
    (getProjectStats s stats p).2.totalReviews = storedTotalReviews stats p := by
  unfold getProjectStats storedTotalReviews
  cases h : alookup stats.projects p with
  | some ps => simp [h]
  | none => simp [h, defaultProjectStats]

theorem partitionCandidates_fst (s : ProjectsMemorySettings) (stats : StatsData)
    (cs : List Candidate) :
    (partitionCandidates s stats cs).1 =
      cs.filter (fun c => decide (storedTotalReviews stats c.path = 0)) := by
  induction cs generalizing stats with
  | nil => rfl
  | cons c rest ih =>
      unfold partitionCandidates
      have hclass := getProjectStats_snd_totalReviews s stats c.path
      have hrest := ih (getProjectStats s stats c.path).1
      have hfun :
          (fun c' : Candidate =>
            decide (storedTotalReviews (getProjectStats s stats c.path).1 c'.path = 0)) =
          (fun c' : Candidate => decide (storedTotalReviews stats c'.path = 0)) := by
        funext c'
        rw [storedTotalReviews_getProjectStats]
      rw [hfun] at hrest
      by_cases h : (getProjectStats s stats c.path).2.totalReviews = 0
      · rw [if_pos h]
        have h0 : storedTotalReviews stats c.path = 0 := hclass ▸ h
        simp [List.filter, h0, hrest]
      · rw [if_neg h]
        have h0 : ¬ storedTotalReviews stats c.path = 0 := fun hc => h (hclass ▸ hc)
        simp [List.filter, h0, hrest]

theorem candLe_trans (a b c : Candidate) :
    candLe a b → candLe b c → candLe a c := by
  unfold candLe
  intro h1 h2
  simp only [decide_eq_true_eq] at h1 h2 ⊢
  exact le_trans h1 h2

theorem candLe_total (a b : Candidate) : candLe a b || candLe b a := by
  unfold candLe
  rcases le_total a.basename b.basename with h | h <;> simp [h]

/-- Claim C2: whenever some candidate's stored review count is 0 (an absent
record counting as 0, the value its lazily created record carries), the
selector returns a candidate with review count 0 — never one with a positive
count — and the returned candidate's display name is lexicographically least
among the new candidates. -/
theorem claim2_new_item_priority (s : ProjectsMemorySettings) (stats : StatsData)
    (cands : List Candidate) (c₀ : Candidate) (hmem : c₀ ∈ cands)
    (hnew : storedTotalReviews stats c₀.path = 0) :
    ∃ chosen, (selectNext s stats cands).1 = some chosen ∧ chosen ∈ cands ∧
      storedTotalReviews stats chosen.path = 0 ∧
      ∀ c ∈ cands, storedTotalReviews stats c.path = 0 →
        chosen.basename ≤ c.basename := by
  unfold selectNext
  set newP := (partitionCandidates s stats cands).1 with hnewP
  have hfilter : newP = cands.filter (fun c => decide (storedTotalReviews stats c.path = 0)) :=
    partitionCandidates_fst s stats cands
  have hc₀ : c₀ ∈ newP := by
    rw [hfilter]
    exact List.mem_filter.mpr ⟨hmem, by simp [hnew]⟩
  have hne : newP.length > 0 := List.length_pos.mpr (List.ne_nil_of_mem hc₀)
  rw [if_pos hne]
  have hsortmem : ∀ c, c ∈ newP.mergeSort candLe ↔ c ∈ newP := fun c => List.mem_mergeSort
  have hsortne : newP.mergeSort candLe ≠ [] := by
    intro hnil
    exact List.ne_nil_of_mem ((hsortmem c₀).mpr hc₀) hnil
  obtain ⟨chosen, t, hcons⟩ := List.exists_cons_of_ne_nil hsortne
  have hpair : List.Pairwise (fun a b => candLe a b = true) (newP.mergeSort candLe) :=
    List.sorted_mergeSort candLe_trans candLe_total newP
  have hchosen_mem : chosen ∈ newP := (hsortmem chosen).mp (hcons ▸ List.mem_cons_self _ _)
  have hchosen_filter := List.mem_filter.mp (hfilter ▸ hchosen_mem)
  refine ⟨chosen, ?_, hchosen_filter.1, by simpa using hchosen_filter.2, ?_⟩
  · rw [hcons]
    rfl
  · intro c hc hc0
    have hcnew : c ∈ newP := by
      rw [hfilter]
      exact List.mem_filter.mpr ⟨hc, by simp [hc0]⟩
    have hcsort : c ∈ newP.mergeSort candLe := (hsortmem c).mpr hcnew
    rw [hcons] at hcsort hpair
    rcases List.mem_cons.mp hcsort with hceq | hct
    · subst hceq
      exact le_refl _
    · have := (List.pairwise_cons.mp hpair).1 c hct
      simpa [candLe] using this

/-- Witness for C2: with a reviewed candidate `"b"` and new candidates `"c"`
and `"a"`, the selector returns a new candidate whose display name is least
among the new ones. -/
theorem claim2_witness :
    ∃ chosen,
      (selectNext DEFAULT_SETTINGS
          { projects := [("pb", ⟨60, 0, 4, "", []⟩), ("pc", ⟨50, 0, 0, "", []⟩)],
            globalStats := ⟨4, 0⟩ }
          [⟨"pb", "b", 60, 60⟩, ⟨"pc", "c", 50, 50⟩, ⟨"pa", "a", 50, 50⟩]).1 = some chosen ∧
      chosen ∈ [⟨"pb", "b", 60, 60⟩, ⟨"pc", "c", 50, 50⟩, (⟨"pa", "a", 50, 50⟩ : Candidate)] ∧
      storedTotalReviews
          { projects := [("pb", ⟨60, 0, 4, "", []⟩), ("pc", ⟨50, 0, 0, "", []⟩)],
            globalStats := ⟨4, 0⟩ } chosen.path = 0 ∧
      ∀ c ∈ [⟨"pb", "b", 60, 60⟩, ⟨"pc", "c", 50, 50⟩, (⟨"pa", "a", 50, 50⟩ : Candidate)],
        storedTotalReviews
            { projects := [("pb", ⟨60, 0, 4, "", []⟩), ("pc", ⟨50, 0, 0, "", []⟩)],
              globalStats := ⟨4, 0⟩ } c.path = 0 →
        chosen.basename ≤ c.basename :=
  claim2_new_item_priority DEFAULT_SETTINGS
    { projects := [("pb", ⟨60, 0, 4, "", []⟩), ("pc", ⟨50, 0, 0, "", []⟩)],
      globalStats := ⟨4, 0⟩ }
    [⟨"pb", "b", 60, 60⟩, ⟨"pc", "c", 50, 50⟩, ⟨"pa", "a", 50, 50⟩]
    ⟨"pa", "a", 50, 50⟩ (by decide) (by decide)

/-! ### Claim C6 -/

theorem migrateStatsToSaveData_flag (st : PluginState) :
    (migrateStatsToSaveData st).settings.statsStoredInData = true := by
  unfold migrateStatsToSaveData
  split
  · rename_i h; simpa using h
  · split
    · rfl
    · cases st.legacyStatsFile <;> rfl

theorem migrateStatsToSaveData_scoresFlag (st : PluginState) :
    (migrateStatsToSaveData st).settings.scoresMigratedToStats =
      st.settings.scoresMigratedToStats := by
  unfold migrateStatsToSaveData
  split
  · rfl
  · split
    · rfl
    · cases st.legacyStatsFile <;> rfl

theorem migrateScoresToStats_flag (st : PluginState) :
    (migrateScoresToStats st).settings.scoresMigratedToStats = true := by
  unfold migrateScoresToStats
  split
  · rename_i h; simpa using h
  · dsimp only
    split
    · rfl
    · unfold loadStatsDataSt
      cases st.payload.statsField <;> rfl

theorem migrateScoresToStats_statsFlag (st : PluginState) :
    (migrateScoresToStats st).settings.statsStoredInData =
      st.settings.statsStoredInData := by
  unfold migrateScoresToStats
  split
  · rfl
  · dsimp only
    split
    · rfl
    · unfold loadStatsDataSt
      cases st.payload.statsField <;> rfl

theorem runMigrations_noop (st : PluginState)
    (h1 : st.settings.statsStoredInData = true)
    (h2 : st.settings.scoresMigratedToStats = true) : runMigrations st = st := by
  unfold runMigrations migrateStatsToSaveData migrateScoresToStats
  simp [h1, h2]

/-- Claim C6: the migration entry points (`migrateStatsToSaveData` then
`migrateScoresToStats`, in the order `onload` runs them) are idempotent —
running them twice produces exactly the state of running them once, because
every exit path of each migration leaves its completion flag set; and when
both flags are already set, running them leaves the whole state (payload
included) unchanged. -/
theorem claim6_migration_idempotent :
    (∀ st : PluginState, runMigrations (runMigrations st) = runMigrations st) ∧
    (∀ st : PluginState, st.settings.statsStoredInData = true →
      st.settings.scoresMigratedToStats = true → runMigrations st = st) := by
  constructor
  · intro st
    apply runMigrations_noop
    · rw [runMigrations, migrateScoresToStats_statsFlag, migrateStatsToSaveData_flag]
    · rw [runMigrations, migrateScoresToStats_flag]
  · exact runMigrations_noop

/-- Witness for C6: a concrete state with both migration flags set is left
untouched by the migrations. -/
theorem claim6_witness :
    runMigrations
      { settings := { DEFAULT_SETTINGS with
                        statsStoredInData := true, scoresMigratedToStats := true }
        payload := { settingsField := none, statsField := none }
        legacyStatsFile := some createEmptyStatsData
        vaultFiles := [⟨"f", ["#projet"], some 30⟩] } =
      { settings := { DEFAULT_SETTINGS with
                        statsStoredInData := true, scoresMigratedToStats := true }
        payload := { settingsField := none, statsField := none }
        legacyStatsFile := some createEmptyStatsData
        vaultFiles := [⟨"f", ["#projet"], some 30⟩] } :=
  claim6_migration_idempotent.2 _ rfl rfl

end ProjectMemory
